import Mathlib

/-
Verification of the request cache in src/shared/store/Network.js.

The JavaScript class Network keeps a history map from url to a mutable
item with optional fields ts (milliseconds, from Date.getTime), data
(the last parsed JSON value) and promise (the in-flight promise).  The
static method Network.fetch implements coalescing, a freshness check
and a retried transport call via p-retry, aborting on HTTP 404.

The embedding below translates that code directly:

  * JSVal models the JSON values a response body can parse to; arrays
    and objects are elided since they are always truthy and the code
    only ever tests truthiness of item.data or stores the value whole.
  * Entry models a history item; an absent field is none.
  * NetworkState models the history map together with a counter that
    allocates identities for the promises the code creates, so that
    returning the same promise object is expressible.
  * Network.fetch models the synchronous body of the static fetch
    method: it runs with no suspension point, returning either an
    existing promise (reused), an immediately resolved promise holding
    cached data (cached), or a freshly launched retried transport call
    (launched).  The launched case is the only one that issues a
    transport request.
  * run, pRetryGo and settle model the asynchronous part: run is the
    callback handed to p-retry (one transport attempt, aborting on
    status 404, parsing the body, writing ts and data on success);
    pRetryGo is p-retry with a budget of retries extra attempts after
    the first, stopping early on AbortError; settle is the outer then
    and catch handlers, which delete the promise field of the history
    item unconditionally and propagate the result.  A transport
    attempt is described from outside by a TransportOutcome: the fetch
    promise rejecting, or a response with a status code and a body
    that either parses to a value or fails to parse.

Times are exact rationals in milliseconds, as produced by
Date.getTime; the freshness comparison divides both sides by 1000
exactly as the source does.  The maxAge option is Option Rat, none
standing for the JavaScript default Infinity.  The decorators
observable, autobind and serverWait do not change the semantics of the
method body and are not modelled.
-/

/-- A JSON value as produced by res.json().  Arrays and objects are
elided: they are always truthy and the cache never inspects them. -/
inductive JSVal where
  | null
  | bool (b : Bool)
  | num (q : ℚ)
  | str (s : String)
  deriving DecidableEq

/-- JavaScript truthiness of a value, as used by the test if (item.data). -/
def JSVal.truthy : JSVal → Bool
  | .null => false
  | .bool b => b
  | .num q => decide (q ≠ 0)
  | .str s => decide (s ≠ "")

/-- A history item: per-url state.  All fields start absent, matching
history.set(url, \x7b\x7d) in the source. -/
structure Entry where
  ts : Option ℚ := none
  data : Option JSVal := none
  promise : Option ℕ := none
  deriving DecidableEq

/-- The cache state: the history map, plus a counter handing out
identities for created promises (promise objects are compared by
identity in the claims, so the model names them by number). -/
structure NetworkState where
  history : String → Option Entry
  nextId : ℕ

/-- The state at module load: an empty history map. -/
def initState : NetworkState := { history := fun _ => none, nextId := 0 }

/-- Read the history item for a url, defaulting to the empty item. -/
def NetworkState.getItem (st : NetworkState) (url : String) : Entry :=
  (st.history url).getD {}

/-- Write the history item for a url. -/
def NetworkState.setItem (st : NetworkState) (url : String) (e : Entry) : NetworkState :=
  { st with history := fun u => if u = url then some e else st.history u }

/-- Step 1 of fetch: if (!history.has(url)) history.set(url, \x7b\x7d). -/
def ensure (st : NetworkState) (url : String) : NetworkState :=
  if (st.history url).isSome = true then st else st.setItem url {}

/-- The recognized option fields of Network.fetch with their defaults.
maxAge is in seconds; none models the default Infinity. -/
structure FetchOptions where
  maxAge : Option ℚ := none
  retries : ℕ := 1
  force : Bool := false

/-- Truthiness of the optional data field: an absent field is falsy. -/
def dataTruthy : Option JSVal → Bool
  | none => false
  | some v => v.truthy

/-- The freshness test of the source: truthy data was already checked
by the caller; here (now / 1000) - (item.ts / 1000) <= maxAge with
both times in milliseconds.  An absent ts makes the comparison NaN in
JavaScript, hence false; an infinite maxAge makes it true. -/
def fresh (now : ℚ) (ts : Option ℚ) (maxAge : Option ℚ) : Bool :=
  match ts with
  | none => false
  | some t =>
    match maxAge with
    | none => true
    | some m => decide (now / 1000 - t / 1000 ≤ m)

/-- The three ways the synchronous body of Network.fetch can return:
handing back the in-flight promise (reused), an already resolved
promise with cached data (cached), or a newly created promise of a
retried transport call (launched).  Only launched issues a transport
request. -/
inductive FetchResult where
  | reused (pid : ℕ)
  | cached (v : JSVal)
  | launched (pid : ℕ)
  deriving DecidableEq

/-- The synchronous body of static fetch(url, options) run at time now
(milliseconds): ensure the history item exists, return the in-flight
promise unless force is set, return fresh truthy cached data, or
register and return a new promise for a retried transport call. -/
def Network.fetch (url : String) (opts : FetchOptions) (now : ℚ)
    (st : NetworkState) : FetchResult × NetworkState :=
  let st1 := ensure st url
  let item := st1.getItem url
  if opts.force = false ∧ item.promise.isSome = true then
    (.reused (item.promise.getD 0), st1)
  else if dataTruthy item.data = true ∧ fresh now item.ts opts.maxAge = true then
    (.cached (item.data.getD .null), st1)
  else
    (.launched st1.nextId,
      { st1.setItem url { item with promise := some st1.nextId } with
          nextId := st1.nextId + 1 })

/-- What one transport attempt for a url does, seen from outside:
either fetch(url) rejects, or it resolves with a response carrying a
status code and a body that res.json() parses to some value or fails
to parse (none). -/
inductive TransportOutcome where
  | reject
  | response (status : ℕ) (body : Option JSVal)
  deriving DecidableEq

/-- How one run of the retried callback ends when it does not succeed:
an AbortError with its message (non-retryable, thrown on 404), or a
retryable failure (rejected fetch or body that fails to parse). -/
inductive RunError where
  | abort (msg : String)
  | transient
  deriving DecidableEq

/-- The callback handed to p-retry, for one attempt finishing at time
now: throw AbortError on status 404 before parsing, otherwise parse
the body, and on success write ts and data into the history item and
return the value. -/
def run (out : TransportOutcome) (now : ℚ) (item : Entry) :
    Except RunError JSVal × Entry :=
  match out with
  | .reject => (.error .transient, item)
  | .response status body =>
    if status = 404 then
      (.error (.abort "404 Not found"), item)
    else
      match body with
      | none => (.error .transient, item)
      | some data => (.ok data, { item with ts := some now, data := some data })

/-- Whether a transport outcome makes run fail retryably: a rejected
fetch, or a non-404 response whose body fails to parse. -/
def retryableOutcome : TransportOutcome → Bool
  | .reject => true
  | .response status body => decide (status ≠ 404) && body.isNone

/-- p-retry running the callback: attempt number i runs with outcome
out i finishing at time t i; remaining counts the attempts still
allowed after the current one (so p-retry with retries r makes at most
r + 1 attempts).  Returns the final result, the final history item,
and how many attempts were made in total. -/
def pRetryGo (out : ℕ → TransportOutcome) (t : ℕ → ℚ) :
    ℕ → ℕ → Entry → Except RunError JSVal × Entry × ℕ
  | i, 0, item =>
    match run (out i) (t i) item with
    | (.ok v, item2) => (.ok v, item2, i + 1)
    | (.error e, item2) => (.error e, item2, i + 1)
  | i, r + 1, item =>
    match run (out i) (t i) item with
    | (.ok v, item2) => (.ok v, item2, i + 1)
    | (.error (.abort m), item2) => (.error (.abort m), item2, i + 1)
    | (.error .transient, item2) => pRetryGo out t (i + 1) r item2

/-- How the promise returned by fetch finally settles. -/
inductive FetchOutcome where
  | resolved (v : JSVal)
  | rejected (e : RunError)
  deriving DecidableEq

/-- The whole asynchronous life of a launched fetch for url: p-retry
runs the callback with the given per-attempt outcomes and times, then
the outer then and catch handlers delete the promise field of the
current history item — unconditionally, whichever promise is stored
there — and resolve or reject.  Returns the settlement, the number of
transport attempts made, and the new cache state. -/
def settle (url : String) (retries : ℕ) (out : ℕ → TransportOutcome)
    (t : ℕ → ℚ) (st : NetworkState) : FetchOutcome × ℕ × NetworkState :=
  match pRetryGo out t 0 retries (st.getItem url) with
  | (.ok v, item2, n) =>
    (.resolved v, n, st.setItem url { item2 with promise := none })
  | (.error e, item2, n) =>
    (.rejected e, n, st.setItem url { item2 with promise := none })

/-- n calls of Network.fetch for the same url, back to back with no
settlement in between: the synchronous bodies of concurrent callers as
they interleave under the single-threaded scheduling of the source. -/
def fetchSeq (url : String) (opts : FetchOptions) (now : ℚ) :
    ℕ → NetworkState → List FetchResult × NetworkState
  | 0, st => ([], st)
  | n + 1, st =>
    let p := Network.fetch url opts now st
    let q := fetchSeq url opts now n p.2
    (p.1 :: q.1, q.2)

/-- Whether a fetch result issued a transport call. -/
def isLaunchedB : FetchResult → Bool
  | .launched _ => true
  | _ => false

/-- The identity of the promise a caller receives, when the result is
a shared promise (reused or launched); a cached result is a fresh
already-resolved promise. -/
def FetchResult.promiseId : FetchResult → Option ℕ
  | .reused p => some p
  | .launched p => some p
  | .cached _ => none

/-! ### Basic lemmas about the state operations -/

lemma getItem_setItem_self (st : NetworkState) (url : String) (e : Entry) :
    (st.setItem url e).getItem url = e := by
  simp [NetworkState.getItem, NetworkState.setItem]

lemma ensure_of_some (st : NetworkState) (url : String)
    (h : (st.history url).isSome = true) : ensure st url = st := by
  simp [ensure, h]

lemma ensure_of_none (st : NetworkState) (url : String)
    (h : st.history url = none) : ensure st url = st.setItem url {} := by
  simp [ensure, h]

lemma getItem_of_some (st : NetworkState) (url : String) (e : Entry)
    (h : st.history url = some e) : st.getItem url = e := by
  simp [NetworkState.getItem, h]

lemma history_isSome_of_promise (st : NetworkState) (url : String) (pid : ℕ)
    (hp : (st.getItem url).promise = some pid) : (st.history url).isSome = true := by
  rcases h : st.history url with _ | e
  · rw [NetworkState.getItem, h] at hp
    simp [Option.getD] at hp
  · rfl

/-! ### Branch lemmas for the synchronous body of Network.fetch -/

lemma fetch_reuse (url : String) (opts : FetchOptions) (now : ℚ)
    (st : NetworkState) (pid : ℕ)
    (hp : (st.getItem url).promise = some pid) (hf : opts.force = false) :
    Network.fetch url opts now st = (.reused pid, st) := by
  have hens : ensure st url = st :=
    ensure_of_some st url (history_isSome_of_promise st url pid hp)
  simp only [Network.fetch, hens]
  rw [if_pos ⟨hf, by rw [hp]; rfl⟩, hp]
  rfl

lemma fetch_cached (url : String) (opts : FetchOptions) (now : ℚ)
    (st : NetworkState)
    (hc1 : ¬(opts.force = false ∧ ((ensure st url).getItem url).promise.isSome = true))
    (hd : dataTruthy ((ensure st url).getItem url).data = true)
    (hfr : fresh now ((ensure st url).getItem url).ts opts.maxAge = true) :
    Network.fetch url opts now st =
      (.cached (((ensure st url).getItem url).data.getD .null), ensure st url) := by
  simp only [Network.fetch]
  rw [if_neg hc1, if_pos ⟨hd, hfr⟩]

lemma fetch_launch (url : String) (opts : FetchOptions) (now : ℚ)
    (st : NetworkState)
    (hc1 : ¬(opts.force = false ∧ ((ensure st url).getItem url).promise.isSome = true))
    (hc2 : ¬(dataTruthy ((ensure st url).getItem url).data = true ∧
             fresh now ((ensure st url).getItem url).ts opts.maxAge = true)) :
    Network.fetch url opts now st =
      (.launched (ensure st url).nextId,
        { (ensure st url).setItem url
            { (ensure st url).getItem url with promise := some (ensure st url).nextId } with
            nextId := (ensure st url).nextId + 1 }) := by
  simp only [Network.fetch]
  rw [if_neg hc1, if_neg hc2]

/-! ### Lemmas about run, pRetryGo and settle -/

lemma run_retryable (out : TransportOutcome) (tm : ℚ) (item : Entry)
    (h : retryableOutcome out = true) : run out tm item = (.error .transient, item) := by
  cases out with
  | reject => rfl
  | response status body =>
    simp only [retryableOutcome, Bool.and_eq_true, decide_eq_true_eq,
      Option.isNone_iff_eq_none] at h
    cases body with
    | none => simp [run, h.1]
    | some v => exact absurd h.2 (by simp)

lemma run_error_item (out : TransportOutcome) (tm : ℚ) (item item2 : Entry)
    (e : RunError) (h : run out tm item = (.error e, item2)) : item2 = item := by
  cases out with
  | reject => cases h; rfl
  | response status body =>
    by_cases h404 : status = 404
    · simp only [run, if_pos h404, Prod.mk.injEq] at h
      exact h.2.symm
    · simp only [run, if_neg h404] at h
      cases body with
      | none =>
        simp only [Prod.mk.injEq] at h
        exact h.2.symm
      | some v => simp at h

lemma pRetry_success (out : ℕ → TransportOutcome) (t : ℕ → ℚ) (i r : ℕ)
    (item item2 : Entry) (v : JSVal)
    (h : run (out i) (t i) item = (.ok v, item2)) :
    pRetryGo out t i r item = (.ok v, item2, i + 1) := by
  cases r <;> simp only [pRetryGo, h]

lemma pRetry_abort (out : ℕ → TransportOutcome) (t : ℕ → ℚ) (i r : ℕ)
    (item item2 : Entry) (m : String)
    (h : run (out i) (t i) item = (.error (.abort m), item2)) :
    pRetryGo out t i r item = (.error (.abort m), item2, i + 1) := by
  cases r <;> simp only [pRetryGo, h]

lemma pRetry_all_transient (out : ℕ → TransportOutcome) (t : ℕ → ℚ)
    (h : ∀ j, retryableOutcome (out j) = true) :
    ∀ r i item, pRetryGo out t i r item = (.error .transient, item, i + r + 1) := by
  intro r
  induction r with
  | zero =>
    intro i item
    simp only [pRetryGo, run_retryable (out i) (t i) item (h i)]
  | succ r ih =>
    intro i item
    have harith : i + 1 + r + 1 = i + (r + 1) + 1 := by omega
    simp only [pRetryGo, run_retryable (out i) (t i) item (h i)]
    rw [ih (i + 1) item, harith]

lemma pRetry_error_item (out : ℕ → TransportOutcome) (t : ℕ → ℚ) :
    ∀ r i item item2 e n,
      pRetryGo out t i r item = (.error e, item2, n) → item2 = item := by
  intro r
  induction r with
  | zero =>
    intro i item item2 e n h
    rcases hr : run (out i) (t i) item with ⟨res, item3⟩
    cases res with
    | ok v =>
      rw [pRetry_success out t i 0 item item3 v hr] at h
      simp at h
    | error e2 =>
      simp only [pRetryGo, hr, Prod.mk.injEq] at h
      exact h.2.1 ▸ run_error_item (out i) (t i) item item3 e2 hr
  | succ r ih =>
    intro i item item2 e n h
    rcases hr : run (out i) (t i) item with ⟨res, item3⟩
    cases res with
    | ok v =>
      rw [pRetry_success out t i (r + 1) item item3 v hr] at h
      simp at h
    | error e2 =>
      have h3 : item3 = item := run_error_item (out i) (t i) item item3 e2 hr
      cases e2 with
      | abort m =>
        simp only [pRetryGo, hr, Prod.mk.injEq] at h
        exact h.2.1 ▸ h3
      | transient =>
        simp only [pRetryGo, hr] at h
        exact (ih (i + 1) item3 item2 e n h).trans h3

lemma countP_replicate_reused (n pid : ℕ) :
    (List.replicate n (FetchResult.reused pid)).countP isLaunchedB = 0 := by
  induction n with
  | zero => rfl
  | succ n ih => simp [List.replicate_succ, List.countP_cons, ih, isLaunchedB]

lemma mem_shape_promiseId (n pid : ℕ) :
    ∀ r ∈ FetchResult.launched pid :: List.replicate n (.reused pid),
      FetchResult.promiseId r = some pid := by
  intro r hr
  rcases List.mem_cons.mp hr with h | h
  · rw [h]; rfl
  · rw [List.eq_of_mem_replicate h]; rfl

lemma fetchSeq_reused (url : String) (opts : FetchOptions) (now : ℚ)
    (hf : opts.force = false) :
    ∀ n (st : NetworkState) (pid : ℕ), (st.getItem url).promise = some pid →
      fetchSeq url opts now n st = (List.replicate n (.reused pid), st) := by
  intro n
  induction n with
  | zero => intro st pid hp; rfl
  | succ n ih =>
    intro st pid hp
    simp only [fetchSeq, fetch_reuse url opts now st pid hp hf, ih st pid hp]
    rfl

/-! ### The interleaving exhibiting the unconditional promise delete -/

/-- First step of the interleaving: a plain fetch launched from an
empty cache, registering promise 0 for url k. -/
def traceS1 : NetworkState := (Network.fetch "k" {} 0 initState).2

/-- Second step: a forced fetch launched while the first is still
pending, overwriting the promise field with promise 1. -/
def traceS2 : NetworkState := (Network.fetch "k" { force := true } 0 traceS1).2

/-- Third step: the first fetch settles in failure (both of its
transport attempts reject) while the second is still pending; its
catch handler deletes whatever promise the history item holds. -/
def traceS3 : NetworkState := (settle "k" 1 (fun _ => .reject) (fun _ => 0) traceS2).2.2

/-- Claim C8: whenever a fetch for a key settles, with success or with
failure, the in-flight field of the history item for that key is
cleared: after any settlement, whatever the per-attempt transport
outcomes and the prior cache state, no in-flight promise remains
stored in the entry. -/
theorem c8_inflight_cleared (url : String) (retries : ℕ)
    (out : ℕ → TransportOutcome) (t : ℕ → ℚ) (st : NetworkState) :
    (((settle url retries out t st).2.2).getItem url).promise = none := by
  rcases h : pRetryGo out t 0 retries (st.getItem url) with ⟨res, item2, n⟩
  cases res with
  | ok v => simp [settle, h, getItem_setItem_self]
  | error e => simp [settle, h, getItem_setItem_self]

/-- Claim C10: the settle handlers delete the promise field of the
history item unconditionally rather than only when it still refers to
the settling fetch.  Concretely: starting from an empty cache, a plain
fetch for k registers promise 0; a forced fetch while it is pending
registers promise 1 in the same slot; when the first fetch settles (in
failure here), its handler removes promise 1 from the entry although
promise 1 has not settled; a subsequent non-forced fetch for k then
launches a third transport call (promise 2) while promise 1 is still
pending. -/
theorem c10_unconditional_promise_delete :
    (Network.fetch "k" {} 0 initState).1 = .launched 0 ∧
    (Network.fetch "k" { force := true } 0 traceS1).1 = .launched 1 ∧
    (traceS2.getItem "k").promise = some 1 ∧
    (traceS3.getItem "k").promise = none ∧
    (Network.fetch "k" {} 0 traceS3).1 = .launched 2 := by
  decide

/-- Claim C1, counterexample: with fresh truthy cached data (value 7
written at time 0, read at time 1000 with the default infinite maxAge)
and even an in-flight promise present, a forced fetch returns the
cached data instead of issuing a transport call, so force does not
bypass the freshness check. -/
theorem c1_counterexample :
    (Network.fetch "k" { force := true } 1000
      (initState.setItem "k" { ts := some 0, data := some (.num 7), promise := some 5 })).1
      = .cached (.num 7) := by
  decide

/-- Claim C2, counterexample: a response with status 500 and a body
that parses to the value 3 is not treated as a retryable failure: the
retried unit succeeds on the first attempt (one transport call even
with retries 5), the future resolves with the parsed body, and the
value is cached into the entry. -/
theorem c2_counterexample :
    (settle "k" 5 (fun _ => .response 500 (some (.num 3))) (fun _ => 2000)
        (initState.setItem "k" { promise := some 0 })).1 = .resolved (.num 3) ∧
    (settle "k" 5 (fun _ => .response 500 (some (.num 3))) (fun _ => 2000)
        (initState.setItem "k" { promise := some 0 })).2.1 = 1 ∧
    ((settle "k" 5 (fun _ => .response 500 (some (.num 3))) (fun _ => 2000)
        (initState.setItem "k" { promise := some 0 })).2.2.getItem "k").data
      = some (.num 3) := by
  decide

/-- Claim C4, counterexample: with cached data 0 (a falsy value)
written at time 0 and no in-flight promise, a fetch at time 0 with
maxAge 100 is well inside the freshness window yet issues a transport
call, because the source guards the freshness check with the
truthiness of item.data. -/
theorem c4_counterexample :
    (Network.fetch "k" { maxAge := some 100 } 0
      (initState.setItem "k" { ts := some 0, data := some (.num 0), promise := none })).1
      = .launched 0 := by
  decide

/-- Claim C5, counterexample: on a 404 response the retried unit does
abort after exactly one transport attempt, but the abort error carries
the message "404 Not found", not the message "Not found" stated by the
claim. -/
theorem c5_counterexample :
    (settle "k" 5 (fun _ => .response 404 none) (fun _ => 0) initState).1
      = .rejected (.abort "404 Not found") ∧
    (settle "k" 5 (fun _ => .response 404 none) (fun _ => 0) initState).2.1 = 1 ∧
    "404 Not found" ≠ "Not found" := by
  decide

/-- Claim C6, counterexample: with cached data the empty string (a
falsy value) and an in-flight fetch that fails after exhausting its
retries, the in-flight slot is cleared and the data is left unchanged,
but the immediately following plain fetch does not return the cached
value: it issues a new transport call, because falsy data never passes
the truthiness guard of the freshness check. -/
theorem c6_counterexample :
    (settle "k" 1 (fun _ => .reject) (fun _ => 0)
        (initState.setItem "k" { ts := some 0, data := some (.str ""), promise := some 0 })).1
      = .rejected .transient ∧
    ((settle "k" 1 (fun _ => .reject) (fun _ => 0)
        (initState.setItem "k" { ts := some 0, data := some (.str ""), promise := some 0 })).2.2.getItem
        "k").data = some (.str "") ∧
    (Network.fetch "k" {} 5
        (settle "k" 1 (fun _ => .reject) (fun _ => 0)
          (initState.setItem "k" { ts := some 0, data := some (.str ""), promise := some 0 })).2.2).1
      = .launched 0 := by
  decide

/-- Claim C1 (amended): a forced fetch bypasses the in-flight-reuse
check only, never returning an existing in-flight future; it issues a
new transport call exactly when the freshness check fails (no truthy
cached data, or data older than maxAge), and when truthy cached data
is fresh it returns the cached value and makes no transport call even
with force set. -/
theorem c1_amended_force_semantics (url : String) (opts : FetchOptions)
    (now : ℚ) (st : NetworkState) (hf : opts.force = true) :
    (∀ pid, (Network.fetch url opts now st).1 ≠ .reused pid) ∧
    (dataTruthy ((ensure st url).getItem url).data = true →
      fresh now ((ensure st url).getItem url).ts opts.maxAge = true →
      Network.fetch url opts now st
        = (.cached (((ensure st url).getItem url).data.getD .null), ensure st url)) ∧
    (¬(dataTruthy ((ensure st url).getItem url).data = true ∧
        fresh now ((ensure st url).getItem url).ts opts.maxAge = true) →
      (Network.fetch url opts now st).1 = .launched (ensure st url).nextId) := by
  have hc1 : ¬(opts.force = false ∧ ((ensure st url).getItem url).promise.isSome = true) := by
    rintro ⟨h1, -⟩
    rw [hf] at h1
    exact absurd h1 (by decide)
  refine ⟨?_, ?_, ?_⟩
  · intro pid hcontra
    by_cases h2 : dataTruthy ((ensure st url).getItem url).data = true ∧
        fresh now ((ensure st url).getItem url).ts opts.maxAge = true
    · rw [fetch_cached url opts now st hc1 h2.1 h2.2] at hcontra
      simp at hcontra
    · rw [fetch_launch url opts now st hc1 h2] at hcontra
      simp at hcontra
  · intro hd hfr
    exact fetch_cached url opts now st hc1 hd hfr
  · intro h2
    rw [fetch_launch url opts now st hc1 h2]

/-- A cache state holding fresh truthy data for url k together with an
in-flight promise, used to instantiate the force theorems. -/
def demoFreshInflight : NetworkState :=
  initState.setItem "k" { ts := some 0, data := some (.num 7), promise := some 5 }

/-- Witness for c1_amended_force_semantics at a concrete state: a
forced fetch at time 1000 returns the cached value 7 rather than the
in-flight promise 5, and a forced fetch at time 9000 with maxAge 2 is
stale and launches a transport call. -/
theorem c1_amended_witness :
    (Network.fetch "k" { force := true } 1000 demoFreshInflight).1 ≠ .reused 5 ∧
    Network.fetch "k" { force := true } 1000 demoFreshInflight
      = (.cached (((ensure demoFreshInflight "k").getItem "k").data.getD .null),
         ensure demoFreshInflight "k") ∧
    (Network.fetch "k" { force := true, maxAge := some 2 } 9000 demoFreshInflight).1
      = .launched (ensure demoFreshInflight "k").nextId := by
  refine ⟨(c1_amended_force_semantics "k" { force := true } 1000 demoFreshInflight rfl).1 5,
    (c1_amended_force_semantics "k" { force := true } 1000 demoFreshInflight rfl).2.1
      (by decide) (by decide),
    (c1_amended_force_semantics "k" { force := true, maxAge := some 2 } 9000
      demoFreshInflight rfl).2.2 (by
        rintro ⟨-, hfr⟩
        have hts : ((ensure demoFreshInflight "k").getItem "k").ts = some 0 := by decide
        rw [hts] at hfr
        simp only [fresh, decide_eq_true_eq] at hfr
        norm_num at hfr)⟩

/-- Claim C2 (amended): only a 404 response aborts the retried unit.
A response with any other status whose body parses (for example a 500
with a JSON body) is treated as a success: the parsed value is
returned and cached.  The retryable failure class consists of
transport rejections and body-parse failures: with every attempt in
that class the retry mechanism makes retries plus one attempts and the
future returned by fetch then rejects with the transient error, the
in-flight slot cleared and nothing cached. -/
theorem c2_amended_error_classes (status : ℕ) (v : JSVal) (tm : ℚ) (item : Entry)
    (url : String) (retries : ℕ) (out : ℕ → TransportOutcome) (t : ℕ → ℚ)
    (st : NetworkState)
    (hs : status ≠ 404) (hall : ∀ j, retryableOutcome (out j) = true) :
    run (.response status (some v)) tm item
      = (.ok v, { item with ts := some tm, data := some v }) ∧
    settle url retries out t st
      = (.rejected .transient, retries + 1,
         st.setItem url { st.getItem url with promise := none }) := by
  constructor
  · simp [run, hs]
  · have hp := pRetry_all_transient out t hall retries 0 (st.getItem url)
    simp only [settle, hp, Nat.zero_add]

/-- Witness for c2_amended_error_classes: a 500 response with body 3
succeeds and writes the cache fields, and a run of two rejecting
transport attempts with the default one retry ends with a transient
rejection after two attempts, the promise slot cleared. -/
theorem c2_amended_witness :
    run (.response 500 (some (.num 3))) 2000 {}
      = (.ok (.num 3), { ts := some 2000, data := some (.num 3), promise := none }) ∧
    settle "k" 1 (fun _ => .reject) (fun _ => 0) initState
      = (.rejected .transient, 2,
         initState.setItem "k" { initState.getItem "k" with promise := none }) := by
  have h := c2_amended_error_classes 500 (.num 3) 2000 {} "k" 1 (fun _ => .reject)
      (fun _ => 0) initState (by decide) (fun j => rfl)
  exact ⟨h.1, h.2⟩

/-- Claim C3: request coalescing.  First, whenever an in-flight
promise exists for a url and force is not set, fetch returns exactly
that promise and leaves the state untouched, so no transport call is
made.  Second, n plus one back-to-back fetch calls for a url with no
prior history entry produce one launched transport call followed by n
reuses of the same promise: the result list is the launch of the fresh
promise followed by n reuses of it, exactly one element of the list
issues a transport call, and every caller holds the same promise, so
all of them settle together with whatever value or failure that single
promise settles with. -/
theorem c3_coalescing (url : String) (opts : FetchOptions) (now : ℚ)
    (hf : opts.force = false) :
    (∀ (st : NetworkState) (pid : ℕ), (st.getItem url).promise = some pid →
      Network.fetch url opts now st = (.reused pid, st)) ∧
    (∀ (st : NetworkState) (n : ℕ), st.history url = none →
      (fetchSeq url opts now (n + 1) st).1
        = .launched st.nextId :: List.replicate n (.reused st.nextId) ∧
      ((fetchSeq url opts now (n + 1) st).1.countP isLaunchedB) = 1 ∧
      (∀ r ∈ (fetchSeq url opts now (n + 1) st).1, r.promiseId = some st.nextId)) := by
  constructor
  · intro st pid hp
    exact fetch_reuse url opts now st pid hp hf
  · intro st n h0
    have hens : ensure st url = st.setItem url {} := ensure_of_none st url h0
    have hitem : (ensure st url).getItem url = {} := by
      rw [hens]
      exact getItem_setItem_self st url {}
    have hc1 : ¬(opts.force = false ∧ ((ensure st url).getItem url).promise.isSome = true) := by
      rw [hitem]
      rintro ⟨-, h2⟩
      simp at h2
    have hc2 : ¬(dataTruthy ((ensure st url).getItem url).data = true ∧
        fresh now ((ensure st url).getItem url).ts opts.maxAge = true) := by
      rw [hitem]
      rintro ⟨h2, -⟩
      simp [dataTruthy] at h2
    have hstep := fetch_launch url opts now st hc1 hc2
    have hnid : (ensure st url).nextId = st.nextId := by rw [hens]; rfl
    have hp2 : (({ (ensure st url).setItem url
        { (ensure st url).getItem url with promise := some (ensure st url).nextId } with
        nextId := (ensure st url).nextId + 1 } : NetworkState).getItem url).promise
        = some st.nextId := by
      have := getItem_setItem_self (ensure st url) url
        { (ensure st url).getItem url with promise := some (ensure st url).nextId }
      rw [show ({ (ensure st url).setItem url
          { (ensure st url).getItem url with promise := some (ensure st url).nextId } with
          nextId := (ensure st url).nextId + 1 } : NetworkState).getItem url
          = ((ensure st url).setItem url
            { (ensure st url).getItem url with promise := some (ensure st url).nextId }).getItem
            url from rfl, this, hnid]
    have htail := fetchSeq_reused url opts now hf n _ st.nextId hp2
    have hlist : (fetchSeq url opts now (n + 1) st).1
        = .launched st.nextId :: List.replicate n (.reused st.nextId) := by
      simp only [fetchSeq, hstep, htail]
      rw [hnid]
    refine ⟨hlist, ?_, ?_⟩
    · rw [hlist]
      simp [List.countP_cons, countP_replicate_reused, isLaunchedB]
    · rw [hlist]
      exact mem_shape_promiseId n st.nextId

/-- A cache state holding only an in-flight promise for url k. -/
def demoInflight : NetworkState := initState.setItem "k" { promise := some 7 }

/-- Witness for c3_coalescing: with promise 7 in flight a plain fetch
returns it unchanged, and three back-to-back fetches from an empty
cache give one launch of promise 0 and two reuses of it. -/
theorem c3_coalescing_witness :
    Network.fetch "k" {} 0 demoInflight = (.reused 7, demoInflight) ∧
    (fetchSeq "k" {} 0 3 initState).1 = .launched 0 :: List.replicate 2 (.reused 0) := by
  refine ⟨(c3_coalescing "k" {} 0 rfl).1 demoInflight 7 (by decide), ?_⟩
  exact ((c3_coalescing "k" {} 0 rfl).2 initState 2 rfl).1

/-- Claim C4 (amended): for a key with truthy cached data d0 written
at timestamp t0 (milliseconds) and no in-flight promise, a non-forced
fetch at time t1 with maxAge m returns an immediately resolved future
with d0, makes no transport call and mutates no cache state whenever
(t1 - t0) / 1000, the age in seconds, is at most m; when the age
exceeds m a transport call is made.  The truthiness restriction on d0
is forced by the source, which guards the whole freshness check with
if (item.data). -/
theorem c4_amended_freshness (url : String) (opts : FetchOptions) (now t0 m : ℚ)
    (d0 : JSVal) (st : NetworkState)
    (he : st.history url = some { ts := some t0, data := some d0, promise := none })
    (hd : d0.truthy = true) (hf : opts.force = false) (hm : opts.maxAge = some m) :
    ((now - t0) / 1000 ≤ m →
      Network.fetch url opts now st = (.cached d0, st)) ∧
    (¬((now - t0) / 1000 ≤ m) →
      (Network.fetch url opts now st).1 = .launched st.nextId) := by
  have hsome : (st.history url).isSome = true := by rw [he]; rfl
  have hens : ensure st url = st := ensure_of_some st url hsome
  have hitem : (ensure st url).getItem url
      = { ts := some t0, data := some d0, promise := none } := by
    rw [hens]
    exact getItem_of_some st url _ he
  have hc1 : ¬(opts.force = false ∧ ((ensure st url).getItem url).promise.isSome = true) := by
    rw [hitem]
    rintro ⟨-, h2⟩
    simp at h2
  have hdiv : (now - t0) / 1000 = now / 1000 - t0 / 1000 := sub_div now t0 1000
  constructor
  · intro hle
    have hfr : fresh now ((ensure st url).getItem url).ts opts.maxAge = true := by
      rw [hitem, hm]
      simp only [fresh, decide_eq_true_eq]
      rw [← hdiv]
      exact hle
    have hdt : dataTruthy ((ensure st url).getItem url).data = true := by
      rw [hitem]
      simpa [dataTruthy] using hd
    rw [fetch_cached url opts now st hc1 hdt hfr, hens, getItem_of_some st url _ he]
    rfl
  · intro hgt
    have hc2 : ¬(dataTruthy ((ensure st url).getItem url).data = true ∧
        fresh now ((ensure st url).getItem url).ts opts.maxAge = true) := by
      rintro ⟨-, hfr⟩
      rw [hitem, hm] at hfr
      simp only [fresh, decide_eq_true_eq] at hfr
      rw [← hdiv] at hfr
      exact hgt hfr
    rw [fetch_launch url opts now st hc1 hc2, hens]

/-- A cache state holding truthy data 7 for url k written at time 0,
with no in-flight promise. -/
def demoFreshEntry : NetworkState :=
  initState.setItem "k" { ts := some 0, data := some (.num 7), promise := none }

/-- Witness for c4_amended_freshness: read at time 1000 with maxAge 2
the age of one second is within the window and the cached 7 comes back
with the state untouched; read at time 9000 the age of nine seconds
exceeds the window and a transport call is launched. -/
theorem c4_amended_witness :
    Network.fetch "k" { maxAge := some 2 } 1000 demoFreshEntry
      = (.cached (.num 7), demoFreshEntry) ∧
    (Network.fetch "k" { maxAge := some 2 } 9000 demoFreshEntry).1
      = .launched demoFreshEntry.nextId := by
  constructor
  · exact (c4_amended_freshness "k" { maxAge := some 2 } 1000 0 2 (.num 7) demoFreshEntry
      (by decide) (by decide) rfl rfl).1 (by norm_num)
  · exact (c4_amended_freshness "k" { maxAge := some 2 } 9000 0 2 (.num 7) demoFreshEntry
      (by decide) (by decide) rfl rfl).2 (by norm_num)

/-- Claim C5 (amended): whenever the first transport attempt responds
with status 404, whatever the retry budget, the retried unit aborts at
once: exactly one transport attempt is made, the future rejects with
the non-retryable abort error carrying the message "404 Not found"
(the source message, not the bare "Not found" of the original claim),
the in-flight slot is cleared, and the data and timestamp fields of
the entry are exactly what they were before. -/
theorem c5_amended_abort (url : String) (retries : ℕ) (out : ℕ → TransportOutcome)
    (t : ℕ → ℚ) (st : NetworkState) (body : Option JSVal)
    (h0 : out 0 = .response 404 body) :
    settle url retries out t st
      = (.rejected (.abort "404 Not found"), 1,
         st.setItem url { st.getItem url with promise := none }) := by
  have hrun : run (out 0) (t 0) (st.getItem url)
      = (.error (.abort "404 Not found"), st.getItem url) := by
    rw [h0]
    rfl
  have hp := pRetry_abort out t 0 retries (st.getItem url) (st.getItem url)
    "404 Not found" hrun
  simp only [settle, hp]

/-- Witness for c5_amended_abort: a 404 response with retries 5 makes
one attempt and rejects with the abort error message 404 Not found,
clearing only the promise field. -/
theorem c5_amended_witness :
    settle "k" 5 (fun _ => .response 404 none) (fun _ => 0) initState
      = (.rejected (.abort "404 Not found"), 1,
         initState.setItem "k" { initState.getItem "k" with promise := none }) :=
  c5_amended_abort "k" 5 (fun _ => .response 404 none) (fun _ => 0) initState none rfl

/-- Claim C6 (amended): when the retried fetch operation for a key
terminates in failure — retries exhausted or an abort raised — the
future returned by fetch rejects with that error, the in-flight slot
of the entry is cleared, and the data and timestamp fields are exactly
as before the call; in particular, if the key held truthy cached data
d0, a plain fetch immediately afterwards (default options, so within
the infinite default maxAge) returns d0 again.  The truthiness
restriction on d0 is forced by the source, which serves the cache only
when if (item.data) passes. -/
theorem c6_amended_failure_preserves_cache (url : String) (retries : ℕ)
    (out : ℕ → TransportOutcome) (t : ℕ → ℚ) (st : NetworkState) (e : RunError)
    (hfail : (pRetryGo out t 0 retries (st.getItem url)).1 = .error e) :
    (settle url retries out t st).1 = .rejected e ∧
    (settle url retries out t st).2.2
      = st.setItem url { st.getItem url with promise := none } ∧
    (∀ d0 t0 now, (st.getItem url).data = some d0 → (st.getItem url).ts = some t0 →
      d0.truthy = true →
      Network.fetch url {} now (settle url retries out t st).2.2
        = (.cached d0, (settle url retries out t st).2.2)) := by
  rcases hpr : pRetryGo out t 0 retries (st.getItem url) with ⟨res, item2, n⟩
  rw [hpr] at hfail
  cases res with
  | ok v => exact absurd hfail (by simp)
  | error e2 =>
    have he2 : e2 = e := by simpa using hfail
    have hitem2 : item2 = st.getItem url :=
      pRetry_error_item out t retries 0 (st.getItem url) item2 e2 n hpr
    rw [he2, hitem2] at hpr
    have hsettle : settle url retries out t st
        = (.rejected e, n, st.setItem url { st.getItem url with promise := none }) := by
      simp only [settle, hpr]
    refine ⟨by rw [hsettle], by rw [hsettle], ?_⟩
    intro d0 t0 now hd0 ht0 htr
    rw [hsettle]
    set stF := st.setItem url { st.getItem url with promise := none } with hstF
    have hhist : stF.history url = some { st.getItem url with promise := none } := by
      simp [hstF, NetworkState.setItem]
    have hitemF : (ensure stF url).getItem url = { st.getItem url with promise := none } := by
      rw [ensure_of_some stF url (by rw [hhist]; rfl)]
      exact getItem_of_some stF url _ hhist
    have hc1 : ¬((({} : FetchOptions)).force = false ∧
        ((ensure stF url).getItem url).promise.isSome = true) := by
      rw [hitemF]
      rintro ⟨-, h2⟩
      simp at h2
    have hdt : dataTruthy ((ensure stF url).getItem url).data = true := by
      rw [hitemF]
      show dataTruthy (st.getItem url).data = true
      rw [hd0]
      simpa [dataTruthy] using htr
    have hfr : fresh now ((ensure stF url).getItem url).ts (({} : FetchOptions)).maxAge
        = true := by
      rw [hitemF]
      show fresh now (st.getItem url).ts (({} : FetchOptions)).maxAge = true
      rw [ht0]
      rfl
    rw [fetch_cached url {} now stF hc1 hdt hfr, ensure_of_some stF url (by rw [hhist]; rfl),
      getItem_of_some stF url _ hhist]
    show (FetchResult.cached ((st.getItem url).data.getD JSVal.null), stF) = _
    rw [hd0]
    rfl

/-- A cache state for url k holding truthy data 7 written at time 0
and an in-flight promise 9 about to fail. -/
def demoGoodData : NetworkState :=
  initState.setItem "k" { ts := some 0, data := some (.num 7), promise := some 9 }

/-- Witness for c6_amended_failure_preserves_cache: both transport
attempts of the pending fetch reject, the future rejects with the
transient error, only the promise field changes, and a plain fetch at
time 50 still returns the cached 7. -/
theorem c6_amended_witness :
    (settle "k" 1 (fun _ => .reject) (fun _ => 0) demoGoodData).1 = .rejected .transient ∧
    (settle "k" 1 (fun _ => .reject) (fun _ => 0) demoGoodData).2.2
      = demoGoodData.setItem "k" { demoGoodData.getItem "k" with promise := none } ∧
    Network.fetch "k" {} 50 (settle "k" 1 (fun _ => .reject) (fun _ => 0) demoGoodData).2.2
      = (.cached (.num 7), (settle "k" 1 (fun _ => .reject) (fun _ => 0) demoGoodData).2.2) := by
  have h := c6_amended_failure_preserves_cache "k" 1 (fun _ => .reject) (fun _ => 0)
      demoGoodData .transient rfl
  exact ⟨h.1, h.2.1, h.2.2 (.num 7) 0 50 (by decide) (by decide) (by decide)⟩

/-- Claim C7: if the transport fails with a retryable error on the
first two attempts and succeeds on the third (any non-404 status with
a body that parses to v), fetch with retries 3 resolves with the
parsed value v after exactly three transport attempts, and afterwards
the entry holds data v and the timestamp of the third attempt as its
completion time, with the in-flight slot cleared. -/
theorem c7_retry_then_succeed (url : String) (out : ℕ → TransportOutcome) (t : ℕ → ℚ)
    (st : NetworkState) (status : ℕ) (v : JSVal)
    (h0 : retryableOutcome (out 0) = true) (h1 : retryableOutcome (out 1) = true)
    (h2 : out 2 = .response status (some v)) (hs : status ≠ 404) :
    settle url 3 out t st
      = (.resolved v, 3,
         st.setItem url
           { st.getItem url with ts := some (t 2), data := some v, promise := none }) := by
  have e0 := run_retryable (out 0) (t 0) (st.getItem url) h0
  have e1 := run_retryable (out 1) (t 1) (st.getItem url) h1
  have e2 : run (out 2) (t 2) (st.getItem url)
      = (.ok v, { st.getItem url with ts := some (t 2), data := some v }) := by
    rw [h2]
    simp [run, hs]
  have hp : pRetryGo out t 0 3 (st.getItem url)
      = (.ok v, { st.getItem url with ts := some (t 2), data := some v }, 3) := by
    simp only [pRetryGo, e0, e1, e2]
  simp only [settle, hp]

/-- Witness for c7_retry_then_succeed: two rejecting attempts then a
200 response with body 9 at time 2 resolve to 9 in three attempts,
caching data 9 with timestamp 2. -/
theorem c7_witness :
    settle "k" 3 (fun i => if i < 2 then .reject else .response 200 (some (.num 9)))
        (fun _ => 2) initState
      = (.resolved (.num 9), 3,
         initState.setItem "k"
           { initState.getItem "k" with ts := some 2, data := some (.num 9), promise := none }) :=
  c7_retry_then_succeed "k"
    (fun i => if i < 2 then .reject else .response 200 (some (.num 9)))
    (fun _ => 2) initState 200 (.num 9) (by decide) (by decide) (by decide) (by decide)

/-- Claim C9: a falsy cached value (null, 0, the empty string, or
false) is never served from the cache: any non-forced fetch for a key
whose entry holds falsy data and no in-flight promise skips the
freshness check — whatever maxAge and however recent the timestamp —
and issues a new transport call. -/
theorem c9_falsy_never_served (url : String) (opts : FetchOptions) (now : ℚ)
    (st : NetworkState) (d : JSVal) (ts0 : Option ℚ)
    (he : st.history url = some { ts := ts0, data := some d, promise := none })
    (hd : d.truthy = false) (hf : opts.force = false) :
    (Network.fetch url opts now st).1 = .launched st.nextId := by
  have hsome : (st.history url).isSome = true := by rw [he]; rfl
  have hens : ensure st url = st := ensure_of_some st url hsome
  have hitem : (ensure st url).getItem url = { ts := ts0, data := some d, promise := none } := by
    rw [hens]
    exact getItem_of_some st url _ he
  have hc1 : ¬(opts.force = false ∧ ((ensure st url).getItem url).promise.isSome = true) := by
    rw [hitem]
    rintro ⟨-, h2⟩
    simp at h2
  have hc2 : ¬(dataTruthy ((ensure st url).getItem url).data = true ∧
      fresh now ((ensure st url).getItem url).ts opts.maxAge = true) := by
    rw [hitem]
    rintro ⟨h2, -⟩
    simp only [dataTruthy] at h2
    rw [hd] at h2
    exact absurd h2 (by decide)
  rw [fetch_launch url opts now st hc1 hc2, hens]

/-- A cache state for url k holding the falsy value 0 written at time
0, with no in-flight promise. -/
def demoFalsyData : NetworkState :=
  initState.setItem "k" { ts := some 0, data := some (.num 0), promise := none }

/-- Witness for c9_falsy_never_served: with cached 0 written at time 0
and a one-second-old read with a huge maxAge, the fetch still launches
a transport call. -/
theorem c9_witness :
    (Network.fetch "k" { maxAge := some 1000000 } 1000 demoFalsyData).1
      = .launched demoFalsyData.nextId :=
  c9_falsy_never_served "k" { maxAge := some 1000000 } 1000 demoFalsyData (.num 0) (some 0)
    (by decide) (by decide) rfl
